import Mathlib

/-!
Shallow embedding of the two analytic consumers of the repository
(`src/consumers/csv_consumer_prince.py` and
`src/consumers/json_consumer_prince.py`).

Numeric JSON values are modelled over the rationals; message bodies enter
the model as the outcome of the standard-library JSON parse (either a
decode failure, which the Python code catches as `json.JSONDecodeError`,
or a parsed JSON value).
-/

/-- A JSON value as produced by `json.loads`: null, boolean, number,
string, array or object.  Objects are association lists in construction
order (duplicate keys resolved last-wins by `pyLookup`, matching Python
dict construction). -/
inductive JValue where
  | null : JValue
  | bool (b : Bool) : JValue
  | num (q : ℚ) : JValue
  | str (s : String) : JValue
  | arr (xs : List JValue) : JValue
  | obj (fields : List (String × JValue)) : JValue

/-- Lookup of a key in a JSON object, keeping the LAST binding, as a
Python dict built by `json.loads` does with duplicate keys. -/
def pyLookup (fields : List (String × JValue)) (k : String) : Option JValue :=
  fields.foldl (fun acc kv => if kv.1 = k then some kv.2 else acc) none

/-- Python `d.get(k)` (default `None`): returns `JValue.null` both when
the key is absent and when it is bound to JSON null, since both give the
Python object `None`. -/
def pyGet (fields : List (String × JValue)) (k : String) : JValue :=
  (pyLookup fields k).getD JValue.null

/-- Python `d.get(k, default)`: the default is used only when the key is
absent; a key bound to JSON null yields `None` (here `JValue.null`), not
the default. -/
def pyGetD (fields : List (String × JValue)) (k : String) (d : JValue) : JValue :=
  (pyLookup fields k).getD d

/-- Whether a JSON-derived Python value is hashable (usable as a dict
key): lists and dicts are not, every scalar is. -/
def isHashable : JValue → Bool
  | JValue.arr _ => false
  | JValue.obj _ => false
  | _ => true

/-- Whether a JSON value is an object (a Python dict after parsing). -/
def JValue.isObj : JValue → Bool
  | JValue.obj _ => true
  | _ => false

/-- Numeric view used by Python equality on dict keys: booleans compare
equal to the numbers 0 and 1 (`True == 1`), numbers compare by value. -/
def pyNumVal : JValue → Option ℚ
  | JValue.bool b => some (if b then 1 else 0)
  | JValue.num q => some q
  | _ => none

/-- Python `==` restricted to hashable JSON-derived values, as used for
dict-key identity in the per-symbol store. -/
def pyKeyEq (a b : JValue) : Bool :=
  match pyNumVal a, pyNumVal b with
  | some x, some y => decide (x = y)
  | some _, none => false
  | none, some _ => false
  | none, none =>
    match a, b with
    | JValue.null, JValue.null => true
    | JValue.str s, JValue.str t => decide (s = t)
    | _, _ => false

/-- The per-symbol price store `stock_prices = defaultdict(list)` of the
json consumer, read through Python dict-key equality: every key that was
never written reads as the empty list. -/
def JStore : Type := JValue → List JValue

/-- The empty store: `defaultdict(list)` before any write. -/
def emptyStore : JStore := fun _ => []

/-- The statement `stock_prices[symbol].append(price)` of the json
consumer: the list at every key equal (as a Python dict key) to `symbol`
grows by `price` at the tail; every other key is untouched. -/
def seriesAppend (st : JStore) (symbol : JValue) (price : JValue) : JStore :=
  fun k => if pyKeyEq k symbol then st k ++ [price] else st k

/-- Outcome of `json.loads` on one raw message body: either a
`json.JSONDecodeError` (the body is not syntactically valid JSON) or a
parsed JSON value. -/
inductive PyMsg where
  | malformed : PyMsg
  | parsed (v : JValue) : PyMsg

/-- State transition of `process_message` of
`src/consumers/json_consumer_prince.py` on the `stock_prices` store.
A decode failure is caught (`except json.JSONDecodeError`) and changes
nothing; a parsed non-dict value takes the `else` logging branch and
changes nothing; a dict has `symbol` (default the string `unknown`) and
`price` (default `0.0`) extracted with `dict.get` and the raw price
appended to the symbol's list.  An unhashable symbol (a list or dict)
makes the subscript raise `TypeError`, caught by the generic
`except Exception` handler, so the store is also unchanged there. -/
def jsonStep (st : JStore) (msg : PyMsg) : JStore :=
  match msg with
  | PyMsg.malformed => st
  | PyMsg.parsed (JValue.obj fields) =>
    let symbol := pyGetD fields "symbol" (JValue.str "unknown")
    let price := pyGetD fields "price" (JValue.num 0)
    if isHashable symbol then seriesAppend st symbol price else st
  | PyMsg.parsed _ => st

/-- Python `deque(maxlen := cap).append v` on a deque currently holding
`w`: below capacity the value is appended at the tail; at capacity the
head is evicted first.  A zero-capacity deque stays empty. -/
def dequeAppend (cap : ℕ) (w : List α) (v : α) : List α :=
  if cap = 0 then []
  else if w.length < cap then w ++ [v]
  else w.tail ++ [v]

/-- The function `detect_stall` of
`src/consumers/csv_consumer_prince.py`, for a window of numeric
readings: below a full window it answers false; on a full window it
compares `max(window) - min(window)` with the threshold, inclusively.
`max`/`min` of an empty sequence raise `ValueError` in Python, modelled
as `none` (reachable only with window size zero). -/
def detect_stall (window : List ℚ) (windowSize : ℕ) (threshold : ℚ) : Option Bool :=
  if window.length < windowSize then some false
  else
    match window with
    | [] => none
    | v :: vs => some (decide (vs.foldl max v - vs.foldl min v ≤ threshold))

/-- The six required fields of a health reading, in the order the csv
consumer checks them. -/
def requiredFields : List String :=
  ["timestamp", "steps", "heart_rate", "calories_burned", "sleep_hours", "hydration_liters"]

/-- Whether any required field of a parsed health message is missing or
null: the check `None in (timestamp, steps, heart_rate, calories_burned,
sleep_hours, hydration_liters)` after six `data.get` calls. -/
def hasMissingField (fields : List (String × JValue)) : Bool :=
  requiredFields.any (fun f => pyGet fields f matches JValue.null)

/-- State transition of `process_message` of
`src/consumers/csv_consumer_prince.py` on the rolling window.  A decode
failure is caught and changes nothing; `data.get` on a parsed non-dict
raises `AttributeError`, caught by the generic handler, so nothing
changes; a missing or null required field returns early before the
append; otherwise the raw `calories_burned` value is appended to the
deque.  The subsequent `detect_stall` call only reads the window (and
any exception it raises is caught), so it does not affect this state. -/
def csvStep (cap : ℕ) (w : List JValue) (msg : PyMsg) : List JValue :=
  match msg with
  | PyMsg.malformed => w
  | PyMsg.parsed (JValue.obj fields) =>
    if hasMissingField fields then w
    else dequeAppend cap w (pyGet fields "calories_burned")
  | PyMsg.parsed _ => w

/-- The consumer loop of the csv consumer: one `process_message` per
delivered message, in order. -/
def csvRun (cap : ℕ) (w : List JValue) (msgs : List PyMsg) : List JValue :=
  msgs.foldl (csvStep cap) w

/-- The left fold of `max`, which is how Python computes `max` of a
nonempty iterable, is a member of the iterable. -/
theorem foldl_max_mem (vs : List ℚ) (v : ℚ) : vs.foldl max v ∈ v :: vs := by
  induction vs generalizing v with
  | nil => simp
  | cons a as ih =>
    have h := ih (max v a)
    rw [List.foldl_cons]
    rcases List.mem_cons.mp h with h1 | h1
    · rcases max_choice v a with hc | hc <;> rw [h1, hc] <;> simp
    · exact List.mem_cons_of_mem _ (List.mem_cons_of_mem _ h1)

/-- The left fold of `max` is an upper bound of the iterable. -/
theorem le_foldl_max (vs : List ℚ) (v : ℚ) : ∀ x ∈ v :: vs, x ≤ vs.foldl max v := by
  induction vs generalizing v with
  | nil => intro x hx; rw [List.mem_singleton] at hx; simp [hx]
  | cons a as ih =>
    intro x hx
    rw [List.foldl_cons]
    have hinit : max v a ≤ as.foldl max (max v a) :=
      ih (max v a) (max v a) (List.mem_cons_self _ _)
    rcases List.mem_cons.mp hx with h1 | h1
    · subst h1; exact le_trans (le_max_left x a) hinit
    · rcases List.mem_cons.mp h1 with h2 | h2
      · subst h2; exact le_trans (le_max_right v x) hinit
      · exact ih (max v a) x (List.mem_cons_of_mem _ h2)

/-- The left fold of `min`, which is how Python computes `min` of a
nonempty iterable, is a member of the iterable. -/
theorem foldl_min_mem (vs : List ℚ) (v : ℚ) : vs.foldl min v ∈ v :: vs := by
  induction vs generalizing v with
  | nil => simp
  | cons a as ih =>
    have h := ih (min v a)
    rw [List.foldl_cons]
    rcases List.mem_cons.mp h with h1 | h1
    · rcases min_choice v a with hc | hc <;> rw [h1, hc] <;> simp
    · exact List.mem_cons_of_mem _ (List.mem_cons_of_mem _ h1)

/-- The left fold of `min` is a lower bound of the iterable. -/
theorem foldl_min_le (vs : List ℚ) (v : ℚ) : ∀ x ∈ v :: vs, vs.foldl min v ≤ x := by
  induction vs generalizing v with
  | nil => intro x hx; rw [List.mem_singleton] at hx; simp [hx]
  | cons a as ih =>
    intro x hx
    rw [List.foldl_cons]
    have hinit : as.foldl min (min v a) ≤ min v a :=
      ih (min v a) (min v a) (List.mem_cons_self _ _)
    rcases List.mem_cons.mp hx with h1 | h1
    · subst h1; exact le_trans hinit (min_le_left x a)
    · rcases List.mem_cons.mp h1 with h2 | h2
      · subst h2; exact le_trans hinit (min_le_right v x)
      · exact ih (min v a) x (List.mem_cons_of_mem _ h2)

/-- Folding `dequeAppend` over a value sequence keeps exactly the most
recent `cap` of the initial contents followed by the sequence.  This is
the closed form of repeatedly appending to a Python deque with a
positive maximum length. -/
theorem dequeFold_eq {α : Type} (cap : ℕ) (hcap : 1 ≤ cap) :
    ∀ (vs init : List α), init.length ≤ cap →
      vs.foldl (dequeAppend cap) init = (init ++ vs).drop (init.length + vs.length - cap) := by
  intro vs
  induction vs with
  | nil =>
    intro init hinit
    simp [Nat.sub_eq_zero_of_le hinit]
  | cons v rest ih =>
    intro init hinit
    have hc0 : cap ≠ 0 := by omega
    rw [List.foldl_cons]
    by_cases h : init.length < cap
    · have hd : dequeAppend cap init v = init ++ [v] := by
        simp [dequeAppend, hc0, h]
      rw [hd, ih (init ++ [v]) (by simp; omega)]
      have harith : (init ++ [v]).length + rest.length - cap
          = init.length + (v :: rest).length - cap := by
        simp; omega
      rw [harith, List.append_assoc]
      rfl
    · have heq : init.length = cap := le_antisymm hinit (not_lt.mp h)
      have hd : dequeAppend cap init v = init.tail ++ [v] := by
        simp [dequeAppend, hc0, h]
      obtain ⟨i0, itl, rfl⟩ : ∃ i0 itl, init = i0 :: itl := by
        cases init with
        | nil => simp at heq; omega
        | cons a b => exact ⟨a, b, rfl⟩
      rw [List.tail_cons] at hd
      rw [hd]
      have hitl : (itl ++ [v]).length ≤ cap := by
        simp at heq ⊢
        omega
      rw [ih (itl ++ [v]) hitl]
      have hidx1 : (itl ++ [v]).length + rest.length - cap = rest.length := by
        simp at heq ⊢
        omega
      have hidx2 : (i0 :: itl).length + (v :: rest).length - cap = rest.length + 1 := by
        simp at heq ⊢
        omega
      rw [hidx1, hidx2, List.cons_append, List.drop_succ_cons, List.append_assoc]
      rfl

/-- Length invariant: folding `dequeAppend` never exceeds the capacity. -/
theorem dequeFold_length_le {α : Type} (cap : ℕ) (hcap : 1 ≤ cap)
    (vs init : List α) (hinit : init.length ≤ cap) :
    (vs.foldl (dequeAppend cap) init).length ≤ cap := by
  rw [dequeFold_eq cap hcap vs init hinit, List.length_drop]
  simp
  omega

/-- Below or at capacity no eviction happens: the fold from the empty
deque is the sequence itself. -/
theorem dequeFold_no_evict {α : Type} (cap : ℕ) (hcap : 1 ≤ cap)
    (vs : List α) (hvs : vs.length ≤ cap) :
    vs.foldl (dequeAppend cap) [] = vs := by
  rw [dequeFold_eq cap hcap vs [] (by simp)]
  simp [Nat.sub_eq_zero_of_le hvs]

/-- C1: for every window of exactly `windowSize` values and every
threshold, `detect_stall` answers exactly whether the range
`max(v1..vw) - min(v1..vw)` is at most the threshold; a range exactly
equal to the threshold counts as stalled (inclusive boundary).  The
maximum `M` and minimum `m` are characterized order-theoretically. -/
theorem stall_full_window_range (v : ℚ) (vs : List ℚ) (W : ℕ) (t M m : ℚ)
    (hlen : (v :: vs).length = W)
    (hMmem : M ∈ v :: vs) (hMub : ∀ x ∈ v :: vs, x ≤ M)
    (hmmem : m ∈ v :: vs) (hmlb : ∀ x ∈ v :: vs, m ≤ x) :
    detect_stall (v :: vs) W t = some (decide (M - m ≤ t)) := by
  have hMeq : vs.foldl max v = M :=
    le_antisymm (hMub _ (foldl_max_mem vs v)) (le_foldl_max vs v M hMmem)
  have hmeq : vs.foldl min v = m :=
    le_antisymm (foldl_min_le vs v m hmmem) (hmlb _ (foldl_min_mem vs v))
  have hcond : ¬ (v :: vs).length < W := by omega
  unfold detect_stall
  rw [if_neg hcond]
  show some (decide (vs.foldl max v - vs.foldl min v ≤ t)) = some (decide (M - m ≤ t))
  rw [hMeq, hmeq]

/-- Witness for C1 at the window `[1, 3, 2]` with window size 3 and
threshold 2: the range 3 - 1 equals the threshold and counts as
stalled. -/
theorem stall_full_window_range_witness :
    detect_stall [(1 : ℚ), 3, 2] 3 2 = some (decide ((3 : ℚ) - 1 ≤ 2)) :=
  stall_full_window_range 1 [3, 2] 3 2 3 1 rfl
    (by simp)
    (by intro x hx; simp at hx; rcases hx with rfl | rfl | rfl <;> norm_num)
    (by simp)
    (by intro x hx; simp at hx; rcases hx with rfl | rfl | rfl <;> norm_num)

/-- C2: for every window size of at least 1, pushing fewer values than
the window size leaves a partial window, on which `detect_stall`
answers false regardless of the values. -/
theorem stall_cold_start (vs : List ℚ) (W : ℕ) (t : ℚ)
    (hW : 1 ≤ W) (hlen : vs.length < W) :
    detect_stall (vs.foldl (dequeAppend W) []) W t = some false := by
  rw [dequeFold_no_evict W hW vs (le_of_lt hlen)]
  simp [detect_stall, hlen]

/-- Witness for C2: two wildly different values in a window of size 3
still answer not stalled, because the window is not yet full. -/
theorem stall_cold_start_witness :
    detect_stall ([(5 : ℚ), 500].foldl (dequeAppend 3) []) 3 ((2 : ℚ)/10) = some false :=
  stall_cold_start [5, 500] 3 ((2 : ℚ)/10) (by norm_num) (by simp)

/-- C3: pushing `w + k` values through a deque of capacity `w` leaves
exactly the last `w` values in arrival order, and every intermediate
window length is at most `w`. -/
theorem window_fifo (vs : List ℚ) (W k : ℕ) (hW : 1 ≤ W) (hk : 1 ≤ k)
    (hlen : vs.length = W + k) :
    vs.foldl (dequeAppend W) [] = vs.drop k ∧
      ∀ n : ℕ, ((vs.take n).foldl (dequeAppend W) []).length ≤ W := by
  refine ⟨?_, fun n => dequeFold_length_le W hW (vs.take n) [] (by simp)⟩
  rw [dequeFold_eq W hW vs [] (by simp)]
  simp only [List.nil_append, List.length_nil, Nat.zero_add]
  congr 1
  omega

/-- Witness for C3: pushing four values into a capacity-3 deque keeps
the last three, and all prefixes respect the capacity. -/
theorem window_fifo_witness :
    [(1 : ℚ), 2, 3, 4].foldl (dequeAppend 3) [] = [(1 : ℚ), 2, 3, 4].drop 1 ∧
      ∀ n : ℕ, (([(1 : ℚ), 2, 3, 4].take n).foldl (dequeAppend 3) []).length ≤ 3 :=
  window_fifo [1, 2, 3, 4] 3 1 (by norm_num) (by norm_num) (by simp)

/-- Appending values for one key accumulates them at that key's series
in order, on top of whatever was already stored. -/
theorem seriesAppend_foldl (vs : List JValue) (key : JValue) (st : JStore)
    (hk : pyKeyEq key key = true) :
    (vs.foldl (fun s v => seriesAppend s key v) st) key = st key ++ vs := by
  induction vs generalizing st with
  | nil => simp
  | cons v rest ih =>
    rw [List.foldl_cons, ih (seriesAppend st key v)]
    simp [seriesAppend, hk]

/-- C4: appending `v1..vn` for a symbol leaves that symbol's stored
series exactly `[v1..vn]` in arrival order, for every `n`, with no
capacity bound and no eviction. -/
theorem series_exact_order (vs : List JValue) (s : String) :
    (vs.foldl (fun st v => seriesAppend st (JValue.str s) v) emptyStore) (JValue.str s) = vs := by
  rw [seriesAppend_foldl vs (JValue.str s) emptyStore (by simp [pyKeyEq, pyNumVal])]
  simp [emptyStore]

/-- A parsed payload with `timestamp` and `symbol` but no `price`. -/
def missingPriceMsg : PyMsg :=
  PyMsg.parsed (JValue.obj
    [("timestamp", JValue.str "2025-01-25T10:00:00"), ("symbol", JValue.str "AAPL")])

/-- C5 counterexample: processing a payload missing `price` does NOT
leave the series for its symbol unchanged — the json consumer defaults
the price to `0.0` with `dict.get` and appends it, so the series for
`AAPL` grows. -/
theorem missing_price_counterexample :
    jsonStep emptyStore missingPriceMsg (JValue.str "AAPL")
      ≠ emptyStore (JValue.str "AAPL") := by
  have hval : jsonStep emptyStore missingPriceMsg (JValue.str "AAPL") = [JValue.num 0] := rfl
  rw [hval]
  simp [emptyStore]

/-- C5 amended: processing a parsed payload whose `price` field is
missing does not fail; the default price `0.0` is appended to the
symbol's series, and every other key is unchanged. -/
theorem missing_price_appends_default (st : JStore) (ts : JValue) (s : String) (k : JValue) :
    jsonStep st (PyMsg.parsed (JValue.obj [("timestamp", ts), ("symbol", JValue.str s)])) k
      = (if pyKeyEq k (JValue.str s) then st k ++ [JValue.num 0] else st k) := by
  simp [jsonStep, pyGetD, pyLookup, isHashable, seriesAppend]

/-- C6: a message body that is not syntactically parseable as JSON is
caught by the decode-error handler in both consumers: neither the
per-symbol series store nor the rolling window is mutated, and the
consumer loop continues with the next message unchanged. -/
theorem malformed_no_mutation (st : JStore) (cap : ℕ) (w : List JValue) :
    jsonStep st PyMsg.malformed = st ∧ csvStep cap w PyMsg.malformed = w ∧
      ∀ rest : List PyMsg, csvRun cap w (PyMsg.malformed :: rest) = csvRun cap w rest :=
  ⟨rfl, rfl, fun _ => rfl⟩

/-- A parsed health payload with all six required fields present and a
non-numeric (string) `calories_burned` value. -/
def nonNumericCaloriesFields : List (String × JValue) :=
  [("timestamp", JValue.str "2025-01-11T18:15:00Z"), ("steps", JValue.num 12500),
   ("heart_rate", JValue.num 80), ("calories_burned", JValue.str "abc"),
   ("sleep_hours", JValue.num 7), ("hydration_liters", JValue.num (25/10))]

/-- C7 counterexample: a payload whose metric field is present but
non-numeric is NOT rejected with a type error and DOES mutate per-key
state — the csv consumer appends the raw string to the rolling window,
so the window changes from empty to containing it.  No float coercion
and no type check exist in either consumer. -/
theorem non_numeric_metric_counterexample :
    csvStep 5 [] (PyMsg.parsed (JValue.obj nonNumericCaloriesFields)) = [JValue.str "abc"] ∧
      ([JValue.str "abc"] : List JValue) ≠ ([] : List JValue) :=
  ⟨rfl, by simp⟩

/-- C7 amended, over both pipelines: the csv consumer appends the
`calories_burned` value of a payload with no missing or null required
field to the window exactly as parsed, and the json consumer appends
the `price` value of a payload carrying a string symbol to that
symbol's series exactly as parsed (default `0.0` only when absent) —
whatever the metric's type, with no numeric coercion and no type
check. -/
theorem metric_appended_raw (cap : ℕ) (w : List JValue) (fields : List (String × JValue))
    (h : hasMissingField fields = false)
    (st : JStore) (gfields : List (String × JValue)) (s : String)
    (hs : pyLookup gfields "symbol" = some (JValue.str s)) (k : JValue) :
    csvStep cap w (PyMsg.parsed (JValue.obj fields))
        = dequeAppend cap w (pyGet fields "calories_burned") ∧
      jsonStep st (PyMsg.parsed (JValue.obj gfields)) k
        = (if pyKeyEq k (JValue.str s) then st k ++ [pyGetD gfields "price" (JValue.num 0)]
           else st k) := by
  constructor
  · simp [csvStep, h]
  · simp [jsonStep, pyGetD, hs, isHashable, seriesAppend]

/-- A parsed price payload whose `price` value is a non-numeric
string. -/
def nonNumericPriceFields : List (String × JValue) :=
  [("timestamp", JValue.str "2025-01-25T10:00:00"), ("symbol", JValue.str "AAPL"),
   ("price", JValue.str "abc")]

/-- Witness for the amended C7: the non-numeric calories payload is
appended verbatim to the rolling window, and the non-numeric price
payload is appended verbatim to the series of `AAPL`. -/
theorem metric_appended_raw_witness :
    csvStep 5 [] (PyMsg.parsed (JValue.obj nonNumericCaloriesFields))
        = dequeAppend 5 [] (pyGet nonNumericCaloriesFields "calories_burned") ∧
      jsonStep emptyStore (PyMsg.parsed (JValue.obj nonNumericPriceFields)) (JValue.str "AAPL")
        = (if pyKeyEq (JValue.str "AAPL") (JValue.str "AAPL")
             then emptyStore (JValue.str "AAPL") ++ [pyGetD nonNumericPriceFields "price" (JValue.num 0)]
           else emptyStore (JValue.str "AAPL")) :=
  metric_appended_raw 5 [] nonNumericCaloriesFields rfl
    emptyStore nonNumericPriceFields "AAPL" rfl (JValue.str "AAPL")

/-- C8: a parsed health message in which some required field is missing
or null is discarded before the append, so the rolling window is
unchanged; the failure is non-fatal and the rest of the message stream
is processed exactly as if the bad message had not been delivered. -/
theorem missing_field_skips (cap : ℕ) (w : List JValue) (fields : List (String × JValue))
    (f : String) (hf : f ∈ requiredFields) (hnull : pyGet fields f = JValue.null) :
    csvStep cap w (PyMsg.parsed (JValue.obj fields)) = w ∧
      ∀ rest : List PyMsg,
        csvRun cap w (PyMsg.parsed (JValue.obj fields) :: rest) = csvRun cap w rest := by
  have hmiss : hasMissingField fields = true := by
    rw [hasMissingField, List.any_eq_true]
    exact ⟨f, hf, by rw [hnull]⟩
  have h1 : csvStep cap w (PyMsg.parsed (JValue.obj fields)) = w := by
    simp [csvStep, hmiss]
  refine ⟨h1, fun rest => ?_⟩
  show (PyMsg.parsed (JValue.obj fields) :: rest).foldl (csvStep cap) w
    = rest.foldl (csvStep cap) w
  rw [List.foldl_cons, h1]

/-- Witness for C8: a message holding only a timestamp (five fields
missing) leaves the empty window empty and drops out of any stream. -/
theorem missing_field_skips_witness :
    csvStep 5 [] (PyMsg.parsed (JValue.obj [("timestamp", JValue.str "t")])) = [] ∧
      ∀ rest : List PyMsg,
        csvRun 5 [] (PyMsg.parsed (JValue.obj [("timestamp", JValue.str "t")]) :: rest)
          = csvRun 5 [] rest :=
  missing_field_skips 5 [] [("timestamp", JValue.str "t")] "steps"
    (by simp [requiredFields]) rfl

/-- C9: appending a price for one symbol leaves the stored series of
every other symbol untouched — per-key state is not shared. -/
theorem series_frame (st : JStore) (s1 s2 : String) (p : JValue)
    (h : s1 ≠ s2) :
    seriesAppend st (JValue.str s1) p (JValue.str s2) = st (JValue.str s2) := by
  have hne : pyKeyEq (JValue.str s2) (JValue.str s1) = false := by
    simp [pyKeyEq, pyNumVal]
    exact fun hc => h hc.symm
  simp [seriesAppend, hne]

/-- Witness for C9: appending a price for `AAPL` leaves the series of
`MSFT` empty. -/
theorem series_frame_witness :
    seriesAppend emptyStore (JValue.str "AAPL") (JValue.num 1) (JValue.str "MSFT")
      = emptyStore (JValue.str "MSFT") :=
  series_frame emptyStore "AAPL" "MSFT" (JValue.num 1) (by decide)

/-- C10: a message that parses as JSON but is not a JSON object takes
the logging branch of the json consumer and leaves the whole per-symbol
store unchanged; the handler structure propagates no exception. -/
theorem non_object_rejected (st : JStore) (v : JValue) (h : v.isObj = false) :
    jsonStep st (PyMsg.parsed v) = st := by
  cases v with
  | obj fields => simp [JValue.isObj] at h
  | null => rfl
  | bool b => rfl
  | num q => rfl
  | str s => rfl
  | arr xs => rfl

/-- Witness for C10: a JSON array leaves the empty store unchanged. -/
theorem non_object_rejected_witness :
    jsonStep emptyStore (PyMsg.parsed (JValue.arr [])) = emptyStore :=
  non_object_rejected emptyStore (JValue.arr []) rfl
